import Mathlib

/-!
Verification of the AI-quiz generation pipeline
(`src/app/api/ai-quiz/generate/route.ts`, exported handler `POST`).

The development shallowly embeds the pipeline that runs after the generative
backend has returned its raw text: the response normalizer (code-fence
stripping, lines 78-81 of the route), the three-stage tolerant JSON parser
(lines 83-111), the minimum-option filter (lines 116-124), the question
document builder (lines 138-152) and the quiz/session persistence sequence
(lines 128-180).  Authentication, the network call to the model, and the
identifier/join-code generation performed by the storage layer are external
collaborators and are not modelled; no claim under examination depends on
them.

JavaScript strings are modelled as `List Char`, JSON numbers as exact
decimals `m * 10 ^ e` in a canonical form; binary floating-point rounding
and the exponent-notation thresholds of `Number.prototype.toString` are not
modelled — no claim exercises them, and a comment marks each spot where
this matters.
-/

set_option maxRecDepth 100000

namespace AiQuiz

/-! ## Exact decimal numbers

A JSON number denotes `m * 10 ^ e`.  The pair is kept in the canonical form
produced by `Dec.norm` (`m` not divisible by ten unless the value is zero,
and zero is `(0, 0)`), so two canonical decimals are equal as values exactly
when they are equal component-wise — matching JavaScript's numeric `===` on
every value the pipeline produces. -/

structure Dec where
  m : Int
  e : Int
deriving DecidableEq

/-- Strip factors of ten from the mantissa; the fuel only bounds recursion
depth and `m.natAbs` always suffices. -/
def stripTens : Nat → Int → Int → Dec
  | 0, m, e => ⟨m, e⟩
  | n + 1, m, e => if m ≠ 0 && m % 10 = 0 then stripTens n (m / 10) (e + 1) else ⟨m, e⟩

def Dec.norm (m e : Int) : Dec :=
  if m = 0 then ⟨0, 0⟩ else stripTens m.natAbs m e

def Dec.ofInt (i : Int) : Dec := Dec.norm i 0

def Dec.add (a b : Dec) : Dec :=
  if a.e ≤ b.e then Dec.norm (a.m + b.m * 10 ^ (b.e - a.e).toNat) a.e
  else Dec.norm (b.m + a.m * 10 ^ (a.e - b.e).toNat) b.e

def Dec.mul (a b : Dec) : Dec := Dec.norm (a.m * b.m) (a.e + b.e)

/-- The clipping the `Date` constructor applies to a millisecond time
value: truncation toward zero to an integral number of milliseconds
(ECMAScript TimeClip).  The range check (times beyond ±8.64e15 become an
invalid date) and binary floating-point rounding of the argument are not
modelled; no claim depends on them, and the one claim about fractional
times (C8's counterexample) is unaffected by either. -/
def Dec.truncMs (a : Dec) : Dec :=
  if 0 ≤ a.e then a else Dec.ofInt (Int.tdiv a.m (10 ^ (-a.e).toNat))

/-- The decimal is a (strictly) positive number. -/
def Dec.pos (a : Dec) : Prop := 0 < a.m

instance (a : Dec) : Decidable a.pos := by unfold Dec.pos; infer_instance

/-! ## Character classes -/

/-- Whitespace recognised by the JSON grammar (`JSON.parse`). -/
def isJsonWs (c : Char) : Bool :=
  c = ' ' || c = '\t' || c = '\n' || c = '\r'

/-- Whitespace of JavaScript's `\s` class and `String.prototype.trim`
(ASCII part plus NBSP, LS, PS, BOM; the remaining exotic Unicode space
characters never occur in any input considered here). -/
def isJsWs (c : Char) : Bool :=
  c = ' ' || c = '\t' || c = '\n' || c = '\r' ||
  c.toNat = 0x0b || c.toNat = 0x0c || c.toNat = 0xa0 ||
  c.toNat = 0x2028 || c.toNat = 0x2029 || c.toNat = 0xfeff

def skipWs (s : List Char) : List Char := s.dropWhile isJsonWs

def isDigit (c : Char) : Bool := '0' ≤ c && c ≤ '9'

def digitVal (c : Char) : Nat := c.toNat - '0'.toNat

def digitsToNat (ds : List Char) : Nat :=
  ds.foldl (fun a c => 10 * a + digitVal c) 0

/-! ## JSON values

Values produced by `JSON.parse`: object fields are kept in source order
(duplicate keys resolved to the last occurrence at lookup time, as a
JavaScript object literal would). -/

inductive Json where
  | null
  | bool (b : Bool)
  | num (q : Dec)
  | str (s : List Char)
  | arr (elems : List Json)
  | obj (fields : List (List Char × Json))
deriving Inhabited

/-- Number assembled from the JSON number grammar pieces:
sign, integer part, fraction digits (value and count), exponent.  The value
is `±(ip * 10 ^ fl + fv) * 10 ^ (e - fl)`, put in canonical form. -/
def mkNum (neg : Bool) (ip fv fl : Nat) (e : Int) : Dec :=
  let m : Int := ((ip * 10 ^ fl + fv : Nat) : Int)
  let m : Int := if neg then -m else m
  Dec.norm m (e - (fl : Int))

/-- Fraction part: either absent, or a dot followed by at least one digit. -/
def pFrac : List Char → Option (Nat × Nat × List Char)
  | '.' :: r =>
    let ds := r.takeWhile isDigit
    if ds = [] then none
    else some (digitsToNat ds, ds.length, r.drop ds.length)
  | s => some (0, 0, s)

/-- Exponent part: either absent, or `e`/`E`, optional sign, digits. -/
def pExp : List Char → Option (Int × List Char)
  | c :: r =>
    if c = 'e' || c = 'E' then
      match r with
      | '+' :: r2 =>
        let ds := r2.takeWhile isDigit
        if ds = [] then none else some ((digitsToNat ds : Int), r2.drop ds.length)
      | '-' :: r2 =>
        let ds := r2.takeWhile isDigit
        if ds = [] then none else some (-(digitsToNat ds : Int), r2.drop ds.length)
      | _ =>
        let ds := r.takeWhile isDigit
        if ds = [] then none else some ((digitsToNat ds : Int), r.drop ds.length)
    else some (0, c :: r)
  | [] => some (0, [])

/-- Number after the optional minus sign: `0` or a non-zero-led digit run,
then fraction and exponent, per the JSON grammar. -/
def pNumCore (neg : Bool) : List Char → Option (Dec × List Char)
  | '0' :: r => do
    let (fv, fl, r1) ← pFrac r
    let (e, r2) ← pExp r1
    some (mkNum neg 0 fv fl e, r2)
  | c :: r =>
    if isDigit c && c ≠ '0' then
      let ds := (c :: r).takeWhile isDigit
      let rest := (c :: r).drop ds.length
      match pFrac rest with
      | none => none
      | some (fv, fl, r1) =>
        match pExp r1 with
        | none => none
        | some (e, r2) => some (mkNum neg (digitsToNat ds) fv fl e, r2)
    else none
  | [] => none

/-- One hexadecimal digit, either case (folding bit 5 lowercases a
letter). -/
def hexDigit (c : Char) : Option Nat :=
  if isDigit c then some (digitVal c)
  else
    let f := c.toNat ||| 0x20
    if 0x61 ≤ f && f ≤ 0x66 then some (f - 0x57) else none

/-- The value of the four digits of a `\u` escape. -/
def hexQuad (cs : List Char) : Option Nat :=
  cs.foldl (fun acc c => acc.bind (fun a => (hexDigit c).map (fun d => 16 * a + d))) (some 0)

/-- String body after the opening quote.  Escapes follow the JSON grammar;
a `\u` surrogate pair is combined into one scalar.  JavaScript would keep a
lone surrogate as a UTF-16 code unit, which `Char` cannot represent; it is
mapped to U+FFFD here (no claim involves lone surrogates). -/
def pStr : Nat → List Char → Option (List Char × List Char)
  | 0, _ => none
  | _ + 1, [] => none
  | _ + 1, '"' :: r => some ([], r)
  | n + 1, '\\' :: e :: r =>
    match e with
    | '"' => do let (cs, r') ← pStr n r; some ( '"' :: cs, r')
    | '\\' => do let (cs, r') ← pStr n r; some ( '\\' :: cs, r')
    | '/' => do let (cs, r') ← pStr n r; some ( '/' :: cs, r')
    | 'b' => do let (cs, r') ← pStr n r; some (Char.ofNat 8 :: cs, r')
    | 'f' => do let (cs, r') ← pStr n r; some (Char.ofNat 12 :: cs, r')
    | 'n' => do let (cs, r') ← pStr n r; some ( '\n' :: cs, r')
    | 'r' => do let (cs, r') ← pStr n r; some ( '\r' :: cs, r')
    | 't' => do let (cs, r') ← pStr n r; some ( '\t' :: cs, r')
    | 'u' =>
      match r with
      | h1 :: h2 :: h3 :: h4 :: r2 => do
        let v ← hexQuad [h1, h2, h3, h4]
        if 0xd800 ≤ v && v ≤ 0xdbff then
          match r2 with
          | '\\' :: 'u' :: g1 :: g2 :: g3 :: g4 :: r3 => do
            let w ← hexQuad [g1, g2, g3, g4]
            if 0xdc00 ≤ w && w ≤ 0xdfff then do
              let sc := 0x10000 + (v - 0xd800) * 0x400 + (w - 0xdc00)
              let (cs, r') ← pStr n r3
              some (Char.ofNat sc :: cs, r')
            else do
              let (cs, r') ← pStr n r2
              some (Char.ofNat 0xfffd :: cs, r')
          | _ => do
            let (cs, r') ← pStr n r2
            some (Char.ofNat 0xfffd :: cs, r')
        else if 0xdc00 ≤ v && v ≤ 0xdfff then do
          let (cs, r') ← pStr n r2
          some (Char.ofNat 0xfffd :: cs, r')
        else do
          let (cs, r') ← pStr n r2
          some (Char.ofNat v :: cs, r')
      | _ => none
    | _ => none
  | n + 1, c :: r =>
    if c.toNat < 0x20 then none
    else do let (cs, r') ← pStr n r; some (c :: cs, r')

/-! The recursive JSON value parser, fuelled.  `pVal` consumes leading
whitespace and parses one value; `pMembers`/`pElems` parse the non-empty
member/element lists of objects and arrays. -/

mutual

def pVal : Nat → List Char → Option (Json × List Char)
  | 0, _ => none
  | n + 1, s =>
    match skipWs s with
    | [] => none
    | '{' :: r => pObj n r
    | '[' :: r => pArr n r
    | '"' :: r => do
      let (cs, r') ← pStr (r.length + 1) r
      some (Json.str cs, r')
    | 't' :: r =>
      if ("rue".toList).isPrefixOf r then some (Json.bool true, r.drop 3) else none
    | 'f' :: r =>
      if ("alse".toList).isPrefixOf r then some (Json.bool false, r.drop 4) else none
    | 'n' :: r =>
      if ("ull".toList).isPrefixOf r then some (Json.null, r.drop 3) else none
    | '-' :: r => do
      let (q, r') ← pNumCore true r
      some (Json.num q, r')
    | c :: r =>
      if isDigit c then do
        let (q, r') ← pNumCore false (c :: r)
        some (Json.num q, r')
      else none

def pObj : Nat → List Char → Option (Json × List Char)
  | 0, _ => none
  | n + 1, r =>
    match skipWs r with
    | '}' :: r' => some (Json.obj [], r')
    | _ => do
      let (fs, r') ← pMembers n r
      some (Json.obj fs, r')

def pMembers : Nat → List Char → Option (List (List Char × Json) × List Char)
  | 0, _ => none
  | n + 1, r =>
    match skipWs r with
    | '"' :: r1 => do
      let (k, r2) ← pStr (r1.length + 1) r1
      match skipWs r2 with
      | ':' :: r3 => do
        let (v, r4) ← pVal n r3
        match skipWs r4 with
        | ',' :: r5 => do
          let (fs, r6) ← pMembers n r5
          some ((k, v) :: fs, r6)
        | '}' :: r5 => some ([(k, v)], r5)
        | _ => none
      | _ => none
    | _ => none

def pArr : Nat → List Char → Option (Json × List Char)
  | 0, _ => none
  | n + 1, r =>
    match skipWs r with
    | ']' :: r' => some (Json.arr [], r')
    | _ => do
      let (es, r') ← pElems n r
      some (Json.arr es, r')

def pElems : Nat → List Char → Option (List Json × List Char)
  | 0, _ => none
  | n + 1, r => do
    let (v, r1) ← pVal n r
    match skipWs r1 with
    | ',' :: r2 => do
      let (es, r3) ← pElems n r2
      some (v :: es, r3)
    | ']' :: r2 => some ([v], r2)
    | _ => none

end

/-- Fuel that is always sufficient: every unit of fuel spent either consumes
an input character or is separated from the next consumption by at most two
further calls. -/
def fuelFor (s : List Char) : Nat := 3 * s.length + 9

/-- The whole of `JSON.parse`: one value, surrounding whitespace allowed,
the whole text consumed. -/
def jsonParse (s : List Char) : Option Json :=
  match pVal (fuelFor s) s with
  | some (v, r) => if skipWs r = [] then some v else none
  | none => none

/-! ## Response normalizer (route lines 78-81)

`generatedOutput.replace(/```json\s*([\s\S]*?)```/, "$1")
                .replace(/```([\s\S]*?)```/, "$1").trim()`

Each `replace` call carries a non-global regex: only the leftmost match is
replaced, by its lazily-captured body.  A match attempt at a position
requires the opening marker there and a closing marker somewhere after; the
regex engine otherwise advances one character. -/

def fence : List Char := "```".toList

def fenceJson : List Char := "```json".toList

/-- Split `s` at the first occurrence of `pat`: the part before the match
and the part after it. -/
def splitOnSub (pat : List Char) : List Char → Option (List Char × List Char)
  | [] => none
  | c :: cs =>
    if pat.isPrefixOf (c :: cs) then some ([], (c :: cs).drop pat.length)
    else
      match splitOnSub pat cs with
      | some (p, r) => some (c :: p, r)
      | none => none

/-- Match attempt for `/```json\s*([\s\S]*?)```/` anchored at the start of
`s`: the opener, then greedy whitespace, then the shortest body ending at a
closing fence.  Returns the captured body and the text after the match. -/
def fjMatch (s : List Char) : Option (List Char × List Char) :=
  if fenceJson.isPrefixOf s then
    splitOnSub fence ((s.drop fenceJson.length).dropWhile isJsWs)
  else none

/-- Match attempt for `/```([\s\S]*?)```/` anchored at the start of `s`. -/
def fMatch (s : List Char) : Option (List Char × List Char) :=
  if fence.isPrefixOf s then splitOnSub fence (s.drop fence.length)
  else none

/-- Replace the leftmost `/```json\s*([\s\S]*?)```/` match by its capture. -/
def replFJ : List Char → List Char
  | [] => []
  | c :: cs =>
    match fjMatch (c :: cs) with
    | some (cap, rest) => cap ++ rest
    | none => c :: replFJ cs

/-- Replace the leftmost `/```([\s\S]*?)```/` match by its capture. -/
def replF : List Char → List Char
  | [] => []
  | c :: cs =>
    match fMatch (c :: cs) with
    | some (cap, rest) => cap ++ rest
    | none => c :: replF cs

/-- The `String.prototype.trim` operation. -/
def trimChars (s : List Char) : List Char :=
  ((s.dropWhile isJsWs).reverse.dropWhile isJsWs).reverse

/-- The response normalizer, route lines 78-81. -/
def normalize (s : List Char) : List Char := trimChars (replF (replFJ s))

/-! ## Tolerant structure parser (route lines 83-106) -/

/-- Stage 2's global rewrite `replace(/}\s*{/g, "},{")`: every closing brace
whose next non-whitespace character is an opening brace gets a comma spliced
between the two; scanning resumes after the opening brace.  The fuel only
bounds recursion depth and the input length always suffices (each step
consumes at least one character). -/
def fixPairs : Nat → List Char → List Char
  | 0, s => s
  | n + 1, s =>
    match s with
    | [] => []
    | '}' :: rest =>
      match rest.dropWhile isJsWs with
      | '{' :: after => '}' :: ',' :: '{' :: fixPairs n after
      | _ => '}' :: fixPairs n rest
    | c :: rest => c :: fixPairs n rest

/-- Stage 2's repaired text: `` `[${generatedOutput.replace(/}\s*{/g, "},{")}]` ``. -/
def fixConcat (s : List Char) : List Char :=
  '[' :: fixPairs s.length s ++ [']']

/-- Stage 3's global matches of `/{[^}]+}/g`: non-overlapping, left to
right; a match needs an opening brace, at least one character none of which
is a closing brace, then a closing brace.  After a failed attempt at an
opening brace the scan resumes one character later; after a match it resumes
past the match.  Fuel as in `fixPairs`. -/
def objMatches : Nat → List Char → List (List Char)
  | 0, _ => []
  | n + 1, s =>
    match s with
    | [] => []
    | c :: rest =>
      if c = '{' then
        let body := rest.takeWhile (fun x => x ≠ '}')
        match rest.drop body.length with
        | '}' :: after =>
          if body = [] then objMatches n rest
          else ( '{' :: body ++ ['}']) :: objMatches n after
        | _ => objMatches n rest
      else objMatches n rest

def joinComma : List (List Char) → List Char
  | [] => []
  | [m] => m
  | m :: ms => m ++ ',' :: joinComma ms

/-- Stage 1: direct `JSON.parse` of the normalized text (line 85). -/
def stage1 (t : List Char) : Option Json := jsonParse t

/-- Stage 2: delimiter repair then `JSON.parse` (lines 88-89). -/
def stage2 (t : List Char) : Option Json := jsonParse (fixConcat t)

/-- Stage 3: object extraction, then `JSON.parse` of the synthetic array
(lines 91-104); no matches means terminal failure. -/
def stage3 (t : List Char) : Option Json :=
  match objMatches t.length t with
  | [] => none
  | ms => jsonParse ( '[' :: joinComma ms ++ [']'])

/-- The nested `try`/`catch` of lines 83-106: the three stages in order,
first success wins. -/
def tolerantParse (t : List Char) : Option Json :=
  match stage1 t with
  | some v => some v
  | none =>
    match stage2 t with
    | some v => some v
    | none => stage3 t

/-- Line 109-111: a non-array parse result is wrapped in a one-element
array. -/
def jsToArray : Json → List Json
  | .arr xs => xs
  | v => [v]

/-! ## JavaScript value semantics used by the route -/

/-- Object property lookup; duplicate keys resolve to the last occurrence,
as in a JavaScript object built by `JSON.parse`. -/
def lookupLast (fs : List (List Char × Json)) (k : List Char) : Option Json :=
  fs.foldl (fun acc kv => if kv.1 = k then some kv.2 else acc) none

/-- Property access on a value known not to be `null`: objects look the key
up, every other value (primitives box; arrays have no such named property
for the keys this route uses) yields `undefined`, modelled as `none`. -/
def getSafe : Json → List Char → Option Json
  | .obj fs, k => lookupLast fs k
  | _, _ => none

/-- Property access as the route performs it: on `null` it throws a
`TypeError` (caught only by the handler's outermost `catch`). -/
def jsGet (v : Json) (k : List Char) : Except Unit (Option Json) :=
  match v with
  | .null => .error ()
  | w => .ok (getSafe w k)

/-- JavaScript truthiness of a parsed value (`NaN` cannot arise from
`JSON.parse`). -/
def jsTruthy : Json → Bool
  | .null => false
  | .bool b => b
  | .num q => q.m ≠ 0
  | .str s => !s.isEmpty
  | .arr _ => true
  | .obj _ => true

/-- Truthiness of a possibly-`undefined` value. -/
def jsTruthyO : Option Json → Bool
  | none => false
  | some v => jsTruthy v

/-- The SameValueZero comparison used by `Array.prototype.includes`, on the
values this pipeline can compare: primitives compare by value; an array or
object operand compares by reference, and the two operands here are always
distinct nodes of a parse tree, hence never the same reference. -/
def jsSameValue : Json → Json → Bool
  | .null, .null => true
  | .bool a, .bool b => a = b
  | .num a, .num b => a = b
  | .str a, .str b => a = b
  | _, _ => false

/-- The check `options.includes(v)` of line 142. -/
def jsIncludes (xs : List Json) (v : Json) : Bool :=
  xs.any (fun x => jsSameValue x v)

/-- Decimal rendering of a number, used by string coercion.  Faithful to
`Number.prototype.toString` for every value reachable in a claim; the
exponent-notation thresholds (at 1e21 and 1e-7) and binary rounding of
extreme values are not modelled. -/
def decToChars (d : Dec) : List Char :=
  let sign : List Char := if d.m < 0 then ['-'] else []
  let ds := Nat.toDigits 10 d.m.natAbs
  if d.m = 0 then ['0']
  else if 0 ≤ d.e then sign ++ ds ++ List.replicate d.e.toNat '0'
  else
    let k := (-d.e).toNat
    if k < ds.length then
      sign ++ ds.take (ds.length - k) ++ '.' :: ds.drop (ds.length - k)
    else sign ++ '0' :: '.' :: List.replicate (k - ds.length) '0' ++ ds

mutual

/-- JavaScript string coercion (template literals, `+` on strings).  An
array joins its elements' coercions with commas, `null` elements printing
as the empty string; an object prints as `[object Object]`. -/
def jsToString : Json → List Char
  | .null => "null".toList
  | .bool true => "true".toList
  | .bool false => "false".toList
  | .num q => decToChars q
  | .str s => s
  | .obj _ => "[object Object]".toList
  | .arr xs => arrToString xs

/-- Comma-joined coercion of array elements (`Array.prototype.join`). -/
def arrToString : List Json → List Char
  | [] => []
  | [Json.null] => []
  | [x] => jsToString x
  | Json.null :: xs => ',' :: arrToString xs
  | x :: xs => jsToString x ++ ',' :: arrToString xs

end

/-- Numeric coercion of the non-string primitives (the only operands that
reach it in `jsAdd`). -/
def numPrim : Json → Dec
  | .num q => q
  | .bool true => Dec.ofInt 1
  | _ => Dec.ofInt 0

/-- JavaScript `+`, as used by the `reduce` on line 158: after `ToPrimitive`
(arrays and objects coerce to their strings), a string operand forces
concatenation, otherwise numeric addition. -/
def jsAdd (a b : Json) : Json :=
  let pa := match a with
    | .arr _ => Json.str (jsToString a)
    | .obj _ => Json.str (jsToString a)
    | v => v
  let pb := match b with
    | .arr _ => Json.str (jsToString b)
    | .obj _ => Json.str (jsToString b)
    | v => v
  match pa, pb with
  | .str x, _ => .str (x ++ jsToString pb)
  | _, .str y => .str (jsToString pa ++ y)
  | _, _ => .num (Dec.add (numPrim pa) (numPrim pb))

/-! ## Records and request -/

/-- The destructured request body (line 18); each field is the parsed JSON
value, or `none` when absent from the body. -/
structure GenRequest where
  topic : Option Json
  numQuestions : Option Json
  duration : Option Json
  questionConfigs : Option Json

/-- The quiz document (lines 128-134; identifier and owner reference are
assigned by external collaborators and carry no claim). -/
structure QuizRecord where
  title : List Char
  description : List Char
  duration : Dec
  total_points : Json

/-- A question document as built on lines 144-151 (the `quiz_id` binding to
the one quiz of the run is implicit in `Db`). -/
structure QuestionDoc where
  question_text : Option Json
  question_type : List Char
  options : List Json
  correct_answer : Json
  points : Json

/-- The session document (lines 162-169; the join code is generated inside
the session model, which is not part of this repository's sources, and no
claim concerns it). -/
structure SessionRecord where
  start_time : Dec
  end_time : Dec
  is_active : Bool

/-- Documents persisted by a single run of the handler. -/
structure Db where
  quizzes : List QuizRecord
  questions : List QuestionDoc
  sessions : List SessionRecord

def emptyDb : Db := ⟨[], [], []⟩

/-- The distinguishable outcomes of the handler: the 400 for missing fields
(line 20), the parse failure 500 (lines 99/103), the no-valid-questions 500
(line 123), the catch-all 500 (line 184), and the 201 success (line 172). -/
inductive Outcome where
  | inputError
  | parseFailure
  | validationExhaustion
  | internalError
  | success
deriving DecidableEq

/-! ## Question validation and document construction (lines 116-152) -/

/-- The filter predicate of line 116-118:
`Array.isArray(q.options) && q.options.length >= 4`. -/
def optionsOk : Option Json → Bool
  | some (.arr xs) => decide (4 ≤ xs.length)
  | _ => false

/-- Line 116: `generatedQuestions.filter(...)`; accessing `q.options` on a
`null` element throws, aborting the whole request. -/
def runFilter : List Json → Except Unit (List Json)
  | [] => .ok []
  | q :: rest => do
    let o ← jsGet q ("options".toList)
    let ds ← runFilter rest
    .ok (if optionsOk o then q :: ds else ds)

/-- Line 140's fallback options. -/
def defaultOptions : List Json :=
  [Json.str ("Option A".toList), Json.str ("Option B".toList),
   Json.str ("Option C".toList), Json.str ("Option D".toList)]

/-- Line 140: keep the candidate's options when they are an array of at
least four, else substitute the defaults. -/
def finalOptions : Option Json → List Json
  | some (.arr xs) => if 4 ≤ xs.length then xs else defaultOptions
  | _ => defaultOptions

/-- Line 142: keep `correct_answer` only when truthy and found by
`includes`, else force the first option. -/
def finalCorrect (ca : Option Json) (options : List Json) : Json :=
  match ca with
  | some v => if jsTruthy v && jsIncludes options v then v else options.headI
  | none => options.headI

/-- Line 150's `questionConfigs[index]?.points`: indexing `undefined` or
`null` throws; indexing any other value never does, and the optional chain
turns a missing or `null` element into `undefined`. -/
def configPoints (qc : Option Json) (i : Nat) : Except Unit (Option Json) :=
  match qc with
  | none => .error ()
  | some .null => .error ()
  | some (.arr xs) =>
    match xs.get? i with
    | none => .ok none
    | some .null => .ok none
    | some w => .ok (getSafe w ("points".toList))
  | some (.obj fs) =>
    match lookupLast fs (Nat.toDigits 10 i) with
    | none => .ok none
    | some .null => .ok none
    | some w => .ok (getSafe w ("points".toList))
  | some (.str s) =>
    match s.get? i with
    | none => .ok none
    | some _ => .ok none
  | some _ => .ok none

/-- Line 150's `... || 10`. -/
def pointsFinal (pts : Option Json) : Json :=
  if jsTruthyO pts then pts.getD Json.null else Json.num (Dec.ofInt 10)

/-- One question document (lines 138-152), in the evaluation order of the
source: the two local bindings, then the object literal's property reads. -/
def buildDoc (qc : Option Json) (i : Nat) (q : Json) : Except Unit QuestionDoc := do
  let optsF ← jsGet q ("options".toList)
  let options := finalOptions optsF
  let caF ← jsGet q ("correct_answer".toList)
  let correct := finalCorrect caF options
  let qt ← jsGet q ("question_text".toList)
  let pts ← configPoints qc i
  .ok { question_text := qt, question_type := "MCQ".toList, options := options,
        correct_answer := correct, points := pointsFinal pts }

/-- The indexed `map` of line 138, failing at the first element whose
construction throws. -/
def buildDocs (qc : Option Json) : Nat → List Json → Except Unit (List QuestionDoc)
  | _, [] => .ok []
  | i, q :: rest => do
    let d ← buildDoc qc i q
    let ds ← buildDocs qc (i + 1) rest
    .ok (d :: ds)

/-- Line 158's `reduce((sum, q) => sum + q.points, 0)`. -/
def sumPoints (docs : List QuestionDoc) : Json :=
  docs.foldl (fun acc d => jsAdd acc d.points) (Json.num (Dec.ofInt 0))

/-! ## Persistence and the handler -/

/-- Line 132's `duration || 10`. -/
def jsOrTen : Option Json → Json
  | some v => if jsTruthy v then v else Json.num (Dec.ofInt 10)
  | none => Json.num (Dec.ofInt 10)

/-- Modelled from the spec: the quiz schema (`@/models/quizModel`, not under
`src/`) stores `duration` as a numeric field — the data model calls it
"durationMinutes: positive integer".  Saving a quiz whose duration value is
not a number is modelled as a storage cast failure, surfacing through the
outermost `catch` before anything is persisted. -/
def castDuration : Json → Option Dec
  | .num q => some q
  | _ => none

/-- The handler from the point where the generated text is in hand: request
field check (line 19), normalization (78-81), tolerant parsing (83-111),
option filtering (116-124), quiz creation (128-135), question document
construction and insertion (138-156), total recomputation (158-160) and
session provisioning (162-170).  `now` is the clock reading of line 162 —
an integral number of milliseconds, as `new Date()` always carries.
Returns the outcome together with every document persisted by the run. -/
def handle (req : GenRequest) (raw : List Char) (now : Int) : Outcome × Db :=
  if !(jsTruthyO req.topic && jsTruthyO req.numQuestions) then (.inputError, emptyDb)
  else
    match tolerantParse (normalize raw) with
    | none => (.parseFailure, emptyDb)
    | some v =>
      match runFilter (jsToArray v) with
      | .error _ => (.internalError, emptyDb)
      | .ok filtered =>
        if filtered.isEmpty then (.validationExhaustion, emptyDb)
        else
          match castDuration (jsOrTen req.duration) with
          | none => (.internalError, emptyDb)
          | some dur =>
            let topicStr := jsToString (req.topic.getD Json.null)
            let quiz0 : QuizRecord :=
              { title := "ai quiz on ".toList ++ topicStr,
                description := "automatically generated quiz about ".toList ++ topicStr,
                duration := dur, total_points := Json.num (Dec.ofInt 0) }
            let db1 : Db := { quizzes := [quiz0], questions := [], sessions := [] }
            match buildDocs req.questionConfigs 0 filtered with
            | .error _ => (.internalError, db1)
            | .ok docs =>
              let quiz1 : QuizRecord := { quiz0 with total_points := sumPoints docs }
              let sess : SessionRecord :=
                { start_time := Dec.ofInt now,
                  end_time :=
                    Dec.truncMs (Dec.add (Dec.ofInt now) (Dec.mul dur (Dec.ofInt 60000))),
                  is_active := true }
              (.success, { quizzes := [quiz1], questions := docs, sessions := [sess] })

/-! ## General lemmas -/

/-- Substring occurrence test (used to state when the fence marker is
absent from a text). -/
def hasSub (pat : List Char) : List Char → Bool
  | [] => pat.isEmpty
  | c :: cs => pat.isPrefixOf (c :: cs) || hasSub pat cs

theorem ebind_ok {α β : Type} (a : α) (f : α → Except Unit β) :
    (Except.ok a : Except Unit α) >>= f = f a := rfl

theorem ebind_err {α β : Type} (f : α → Except Unit β) :
    (Except.error () : Except Unit α) >>= f = Except.error () := rfl

theorem headI_mem_of_ne_nil {l : List Json} (h : l ≠ []) : l.headI ∈ l := by
  cases l with
  | nil => exact absurd rfl h
  | cons a t => exact List.mem_cons_self a t

theorem jsSameValue_eq {a b : Json} (h : jsSameValue a b = true) : a = b := by
  cases a <;> cases b <;> simp_all [jsSameValue]

theorem mem_of_jsIncludes {xs : List Json} {v : Json} (h : jsIncludes xs v = true) :
    v ∈ xs := by
  rcases List.any_eq_true.mp h with ⟨x, hx, hsv⟩
  exact (jsSameValue_eq hsv) ▸ hx

theorem finalOptions_ne_nil (o : Option Json) : finalOptions o ≠ [] := by
  match o with
  | none => simp [finalOptions, defaultOptions]
  | some .null | some (.bool _) | some (.num _) | some (.str _) | some (.obj _) =>
    simp [finalOptions, defaultOptions]
  | some (.arr xs) =>
    simp only [finalOptions]
    split
    · intro h; subst h; simp_all
    · simp [defaultOptions]

theorem jsGet_of_ne_null {q : Json} (k : List Char) (h : q ≠ Json.null) :
    jsGet q k = .ok (getSafe q k) := by
  cases q <;> first | exact absurd rfl h | rfl

/-- The correct answer selected on line 142 is always one of the final
options. -/
theorem finalCorrect_mem (ca : Option Json) (options : List Json)
    (h : options ≠ []) : finalCorrect ca options ∈ options := by
  match ca with
  | none => exact headI_mem_of_ne_nil h
  | some v =>
    simp only [finalCorrect]
    split
    · rename_i hc
      exact mem_of_jsIncludes (Bool.and_elim_right hc)
    · exact headI_mem_of_ne_nil h

/-- When the candidate's answer is falsy or not found by `includes`, line
142 falls back to the first option. -/
theorem finalCorrect_not_kept {ca : Json} {options : List Json}
    (h : jsTruthy ca = false ∨ jsIncludes options ca = false) :
    finalCorrect (some ca) options = options.headI := by
  simp only [finalCorrect]
  split
  · rename_i hcond
    exfalso
    rcases h with hf | hf <;> simp [hf] at hcond
  · rfl

/-- Building a document from a `null` candidate throws at the first
property read. -/
theorem buildDoc_null (qc : Option Json) (i : Nat) :
    buildDoc qc i Json.null = .error () := rfl

/-- What a successfully built question document is, field by field, in
terms of the candidate's properties (route lines 138-152). -/
theorem buildDoc_ok {qc : Option Json} {i : Nat} {q : Json} {doc : QuestionDoc}
    (hq : q ≠ Json.null) (h : buildDoc qc i q = .ok doc) :
    ∃ pts, configPoints qc i = .ok pts ∧
      doc = ⟨getSafe q ("question_text".toList), "MCQ".toList,
             finalOptions (getSafe q ("options".toList)),
             finalCorrect (getSafe q ("correct_answer".toList))
               (finalOptions (getSafe q ("options".toList))),
             pointsFinal pts⟩ := by
  unfold buildDoc at h
  rw [jsGet_of_ne_null _ hq, ebind_ok, jsGet_of_ne_null _ hq, ebind_ok,
      jsGet_of_ne_null _ hq, ebind_ok] at h
  cases hc : configPoints qc i with
  | error e =>
    cases e
    rw [hc, ebind_err] at h
    cases h
  | ok pts =>
    rw [hc, ebind_ok] at h
    exact ⟨pts, rfl, ((Except.ok.injEq _ _).mp h).symm⟩

/-! ## Shared concrete fixtures -/

def optsABCD : List Json :=
  [Json.str ("a".toList), Json.str ("b".toList), Json.str ("c".toList), Json.str ("d".toList)]

/-- A well-formed candidate whose correct answer is the second option. -/
def qGood : Json := Json.obj
  [("question_text".toList, Json.str ("Q".toList)),
   ("options".toList, Json.arr optsABCD),
   ("correct_answer".toList, Json.str ("b".toList))]

/-! ## C1 — the correct-answer rule of line 142 -/

/--
Claim C1: for every candidate surviving validation, the produced document's
`correct_answer` is a member of its final options; it equals the
candidate's `correct_answer` exactly when that value is *truthy* and found
by the `includes` check, and in every other case — answer absent, falsy, or
not found by `includes` — it is forced to the first option
(`doc.options.headI`).  (The frozen claim omits the truthiness condition;
`c1_counterexample` shows the omission matters.)  The membership invariant
itself holds unconditionally.
-/
theorem c1_correct_answer_in_options :
    ∀ (qc : Option Json) (i : Nat) (q : Json) (doc : QuestionDoc),
    optionsOk (getSafe q ("options".toList)) = true →
    buildDoc qc i q = .ok doc →
    doc.correct_answer ∈ doc.options ∧
    (∀ ca, getSafe q ("correct_answer".toList) = some ca → jsTruthy ca = true →
      jsIncludes doc.options ca = true → doc.correct_answer = ca) ∧
    (∀ ca, getSafe q ("correct_answer".toList) = some ca →
      jsTruthy ca = false ∨ jsIncludes doc.options ca = false →
      doc.correct_answer = doc.options.headI) ∧
    (getSafe q ("correct_answer".toList) = none →
      doc.correct_answer = doc.options.headI) := by
  intro qc i q doc hopt h
  have hq : q ≠ Json.null := by
    rintro rfl
    simp [getSafe, optionsOk] at hopt
  obtain ⟨pts, hc, rfl⟩ := buildDoc_ok hq h
  refine ⟨finalCorrect_mem _ _ (finalOptions_ne_nil _), ?_, ?_, ?_⟩
  · intro ca hca htr hinc
    simp only [finalCorrect, hca]
    simp only at hinc
    rw [htr, hinc]
    simp
  · intro ca hca hor
    rw [hca]
    exact finalCorrect_not_kept hor
  · intro hca
    rw [hca]
    rfl

def c1req : Option Json := some (Json.arr [])

def c1doc : QuestionDoc :=
  ⟨some (Json.str ("Q".toList)), "MCQ".toList, optsABCD,
   Json.str ("b".toList), Json.num (Dec.ofInt 10)⟩

/-- A surviving candidate whose `correct_answer` is the empty string, which
is a member of its options. -/
def qFalsy : Json := Json.obj
  [("options".toList,
    Json.arr [Json.str ("a".toList), Json.str [], Json.str ("c".toList), Json.str ("d".toList)]),
   ("correct_answer".toList, Json.str [])]

def cFalsyDoc : QuestionDoc :=
  ⟨none, "MCQ".toList,
   [Json.str ("a".toList), Json.str [], Json.str ("c".toList), Json.str ("d".toList)],
   Json.str ("a".toList), Json.num (Dec.ofInt 10)⟩

/-- Witness for C1 at concrete surviving candidates: a truthy member
answer `"b"` is kept and is among the options, while a falsy answer is
forced to the first option. -/
theorem c1_witness :
    (c1doc.correct_answer ∈ c1doc.options ∧ c1doc.correct_answer = Json.str ("b".toList)) ∧
    cFalsyDoc.correct_answer = cFalsyDoc.options.headI :=
  ⟨⟨(c1_correct_answer_in_options c1req 0 qGood c1doc rfl rfl).1,
    (c1_correct_answer_in_options c1req 0 qGood c1doc rfl rfl).2.1
      (Json.str ("b".toList)) rfl rfl rfl⟩,
   (c1_correct_answer_in_options c1req 0 qFalsy cFalsyDoc rfl rfl).2.2.1
     (Json.str []) rfl (Or.inl rfl)⟩

/-- Counterexample to C1 as frozen: the candidate's `correct_answer` `""`
is a member of the final options, yet the produced document's
`correct_answer` is the first option `"a"`, not `""` — because line 142
also requires truthiness, which `""` fails. -/
theorem c1_counterexample :
    optionsOk (getSafe qFalsy ("options".toList)) = true ∧
    buildDoc c1req 0 qFalsy = .ok cFalsyDoc ∧
    Json.str [] ∈ cFalsyDoc.options ∧
    cFalsyDoc.correct_answer ≠ Json.str [] := by
  refine ⟨rfl, rfl, ?_, ?_⟩
  · simp [cFalsyDoc]
  · simp [cFalsyDoc]

/-! ## C2 — the points rule of line 150 -/

/--
Claim C2 (amended): the points of the document at position `i` are the
request's `questionConfigs[i].points` whenever that value exists and is
*truthy*, and the fallback `10` otherwise; every document's points value is
a positive number provided each points value supplied in the configuration
array is positive.  (The frozen claim said the configured value is used
only when *positive*; `c2_counterexample` shows a negative configured value
is used verbatim, so positivity of the stored points holds only under the
proviso.)
-/
theorem configPoints_arr (cfgs : List Json) (i : Nat) :
    configPoints (some (Json.arr cfgs)) i =
      .ok (match cfgs.get? i with
        | none => none
        | some Json.null => none
        | some w => getSafe w ("points".toList)) := by
  simp only [configPoints]
  cases cfgs.get? i with
  | none => rfl
  | some e => cases e <;> rfl

theorem c2_points_assignment :
    ∀ (qc : Option Json) (i : Nat) (q : Json) (doc : QuestionDoc),
    buildDoc qc i q = .ok doc →
    (∀ w, configPoints qc i = .ok (some w) →
      doc.points = if jsTruthy w then w else Json.num (Dec.ofInt 10)) ∧
    (configPoints qc i = .ok none → doc.points = Json.num (Dec.ofInt 10)) ∧
    (∀ cfgs, qc = some (Json.arr cfgs) →
      (∀ e ∈ cfgs, ∀ w, getSafe e ("points".toList) = some w →
        ∃ p : Dec, w = Json.num p ∧ p.pos) →
      ∃ p : Dec, doc.points = Json.num p ∧ p.pos) := by
  intro qc i q doc h
  have hq : q ≠ Json.null := by
    rintro rfl
    rw [buildDoc_null] at h
    cases h
  obtain ⟨pts, hc, rfl⟩ := buildDoc_ok hq h
  refine ⟨?_, ?_, ?_⟩
  · intro w hw
    rw [hc] at hw
    obtain rfl : pts = some w := (Except.ok.injEq _ _).mp hw
    simp [pointsFinal, jsTruthyO]
  · intro hn
    rw [hc] at hn
    obtain rfl : pts = none := (Except.ok.injEq _ _).mp hn
    rfl
  · intro cfgs hqc hpos
    subst hqc
    show ∃ p, pointsFinal pts = Json.num p ∧ p.pos
    rw [configPoints_arr] at hc
    obtain rfl := (Except.ok.injEq _ _).mp hc
    cases hg : cfgs.get? i with
    | none =>
      exact ⟨Dec.ofInt 10, rfl, by decide⟩
    | some e =>
      have he : e ∈ cfgs := List.get?_mem hg
      cases e
      case obj fs =>
        show ∃ p, pointsFinal (getSafe (Json.obj fs) ("points".toList)) = Json.num p ∧ p.pos
        cases hgs : getSafe (Json.obj fs) ("points".toList) with
        | none => exact ⟨Dec.ofInt 10, rfl, by decide⟩
        | some w =>
          obtain ⟨p, rfl, hp⟩ := hpos _ he w hgs
          exact ⟨p, by simp [pointsFinal, jsTruthyO, jsTruthy, hp.ne'], hp⟩
      all_goals exact ⟨Dec.ofInt 10, rfl, by decide⟩

def cfg7 : Option Json :=
  some (Json.arr [Json.obj [("points".toList, Json.num (Dec.ofInt 7))]])

def c2doc : QuestionDoc :=
  ⟨some (Json.str ("Q".toList)), "MCQ".toList, optsABCD,
   Json.str ("b".toList), Json.num (Dec.ofInt 7)⟩

/-- Witness for C2: a configured points value of `7` at position `0` is
used verbatim, and positive configurations give positive stored points. -/
theorem c2_witness :
    c2doc.points = Json.num (Dec.ofInt 7) ∧ ∃ p, c2doc.points = Json.num p ∧ p.pos := by
  have h := c2_points_assignment cfg7 0 qGood c2doc rfl
  refine ⟨by simpa using h.1 (Json.num (Dec.ofInt 7)) rfl, ?_⟩
  refine h.2.2 _ rfl ?_
  intro e he w hw
  rw [List.mem_singleton] at he
  subst he
  rw [show getSafe (Json.obj [("points".toList, Json.num (Dec.ofInt 7))]) ("points".toList)
        = some (Json.num (Dec.ofInt 7)) from rfl, Option.some.injEq] at hw
  subst hw
  exact ⟨Dec.ofInt 7, rfl, by decide⟩

def cfgNeg : Option Json :=
  some (Json.arr [Json.obj [("points".toList, Json.num (Dec.ofInt (-5)))]])

def c2negDoc : QuestionDoc :=
  ⟨some (Json.str ("Q".toList)), "MCQ".toList, optsABCD,
   Json.str ("b".toList), Json.num (Dec.ofInt (-5))⟩

/-- Counterexample to C2 as frozen: a configured points value of `-5` is
present but not positive, yet line 150's `|| 10` keeps it (it is truthy),
so the stored points value is `-5`, not the claimed fallback `10`, and it
is not positive. -/
theorem c2_counterexample :
    buildDoc cfgNeg 0 qGood = .ok c2negDoc ∧
    c2negDoc.points = Json.num (Dec.ofInt (-5)) ∧
    ¬ (Dec.ofInt (-5)).pos ∧
    c2negDoc.points ≠ Json.num (Dec.ofInt 10) := by
  refine ⟨rfl, rfl, by decide, ?_⟩
  intro hh
  injection hh with h2
  revert h2
  decide

/-! ## C3 — non-emptiness of a successful parse -/

/-- A non-empty element list: the grammar of `pElems` always produces at
least one element. -/
theorem pElems_ne_nil {n : Nat} {r : List Char} {es : List Json} {r' : List Char}
    (h : pElems n r = some (es, r')) : es ≠ [] := by
  cases n with
  | zero => exact Option.noConfusion h
  | succ n =>
    simp only [pElems] at h
    cases hv : pVal n r with
    | none => rw [hv] at h; exact Option.noConfusion h
    | some pr =>
      obtain ⟨v0, r1⟩ := pr
      rw [hv] at h
      simp only [Option.bind_eq_bind, Option.some_bind] at h
      split at h
      · cases hpe : pElems n _ with
        | none => rw [hpe] at h; exact Option.noConfusion h
        | some pr2 =>
          obtain ⟨es2, r3⟩ := pr2
          rw [hpe] at h
          simp only [Option.bind_eq_bind, Option.some_bind] at h
          obtain ⟨rfl, rfl⟩ := Prod.mk.injEq .. ▸ (Option.some.injEq _ _).mp h
          simp
      · obtain ⟨rfl, rfl⟩ := Prod.mk.injEq .. ▸ (Option.some.injEq _ _).mp h
        simp
      · cases h

/-- Every match of `/{[^}]+}/g` starts with an opening brace. -/
theorem objMatches_head :
    ∀ (n : Nat) (s m : List Char), m ∈ objMatches n s → ∃ b, m = '{' :: b := by
  intro n
  induction n with
  | zero => intro s m hm; simp [objMatches] at hm
  | succ n ih =>
    intro s m hm
    cases s with
    | nil => simp [objMatches] at hm
    | cons c rest =>
      simp only [objMatches] at hm
      split at hm
      · split at hm
        · split at hm
          · exact ih rest m hm
          · rcases List.mem_cons.mp hm with h1 | h2
            · exact ⟨_, h1⟩
            · exact ih _ m h2
        · exact ih rest m hm
      · exact ih rest m hm

/-- A stage-3 success is an array with at least one element. -/
theorem stage3_shape {t : List Char} {v : Json} (h : stage3 t = some v) :
    ∃ e es, v = Json.arr (e :: es) := by
  unfold stage3 at h
  cases hm : objMatches t.length t with
  | nil => rw [hm] at h; exact Option.noConfusion h
  | cons m ms =>
    rw [hm] at h
    obtain ⟨b, rfl⟩ := objMatches_head t.length t m (hm ▸ List.mem_cons_self m ms)
    replace h : jsonParse ('[' :: joinComma (('{' :: b) :: ms) ++ [']']) = some v := h
    have hjoin : ∃ tail, '[' :: joinComma (('{' :: b) :: ms) ++ [']'] = '[' :: '{' :: tail := by
      cases ms with
      | nil => exact ⟨b ++ [']'], rfl⟩
      | cons m2 ms' => exact ⟨(b ++ ',' :: joinComma (m2 :: ms')) ++ [']'], rfl⟩
    obtain ⟨tail, hts⟩ := hjoin
    rw [hts] at h
    simp only [jsonParse] at h
    obtain ⟨k, hk⟩ : ∃ k, fuelFor ('[' :: '{' :: tail) = k + 2 :=
      ⟨3 * ('[' :: '{' :: tail).length + 7, by simp [fuelFor]⟩
    rw [hk] at h
    have harr : pVal (k + 2) ('[' :: '{' :: tail)
        = (pElems k ('{' :: tail)).bind (fun p => some (Json.arr p.1, p.2)) := rfl
    rw [harr] at h
    cases hpe : pElems k ('{' :: tail) with
    | none => rw [hpe] at h; exact Option.noConfusion h
    | some pr =>
      obtain ⟨es, r'⟩ := pr
      rw [hpe] at h
      simp only [Option.bind_eq_bind, Option.some_bind] at h
      split at h
      · cases es with
        | nil => exact absurd rfl (pElems_ne_nil hpe)
        | cons e es' => exact ⟨e, es', ((Option.some.injEq _ _).mp h).symm⟩
      · cases h

/--
Claim C3 (amended): a successful run of the tolerant structure parser
yields a non-empty candidate sequence **unless** the parsed value is the
empty JSON array — stages 1 and 2 can produce the empty sequence (see
`c3_counterexample`, input `[]`), while a stage-3 success always yields at
least one candidate.
-/
theorem c3_nonempty_candidates :
    ∀ t : List Char,
    (∀ v, tolerantParse t = some v → jsToArray v = [] → v = Json.arr []) ∧
    (∀ v, stage3 t = some v → jsToArray v ≠ []) := by
  intro t
  constructor
  · intro v _ hv
    cases v <;> simp_all [jsToArray]
  · intro v h3 hv
    obtain ⟨e, es, rfl⟩ := stage3_shape h3
    simp [jsToArray] at hv

/-- Witness for C3 at a concrete stage-3 recovery. -/
theorem c3_witness :
    jsToArray (Json.arr [Json.obj [("a".toList, Json.num (Dec.ofInt 1))]]) ≠ [] :=
  (c3_nonempty_candidates (("x \x7b\"a\":1\x7d y").toList)).2
    (Json.arr [Json.obj [("a".toList, Json.num (Dec.ofInt 1))]]) rfl

/-- Counterexample to C3 as frozen: the normalized text `[]` parses
directly (stage 1), yet the candidate sequence is empty. -/
theorem c3_counterexample :
    tolerantParse ("[]".toList) = some (Json.arr []) ∧ jsToArray (Json.arr []) = [] :=
  ⟨rfl, rfl⟩

/-! ## C4 — total validation failure -/

/-- A filter pass over candidates that are never `null` and never have an
acceptable options array keeps nothing and throws nothing. -/
theorem runFilter_empty {l : List Json}
    (h : ∀ q ∈ l, q ≠ Json.null ∧ optionsOk (getSafe q ("options".toList)) = false) :
    runFilter l = .ok [] := by
  induction l with
  | nil => rfl
  | cons q rest ih =>
    obtain ⟨hq, hopt⟩ := h q (List.mem_cons_self q rest)
    simp only [runFilter]
    rw [jsGet_of_ne_null _ hq, ebind_ok,
        ih (fun x hx => h x (List.mem_cons_of_mem _ hx)), ebind_ok, hopt]
    simp

/--
Claim C4 (amended): when the parsed candidate sequence contains no element
with an options array of at least four entries **and no `null` element**,
the run ends in `ValidationExhaustion` with nothing persisted.  (A `null`
candidate instead throws at the filter's `q.options` read and surfaces as
the generic internal error — `c4_counterexample`; nothing is persisted in
that case either.)
-/
theorem c4_validation_exhaustion :
    ∀ (req : GenRequest) (raw : List Char) (now : Int) (v : Json),
    jsTruthyO req.topic = true → jsTruthyO req.numQuestions = true →
    tolerantParse (normalize raw) = some v →
    (∀ q ∈ jsToArray v, q ≠ Json.null ∧ optionsOk (getSafe q ("options".toList)) = false) →
    handle req raw now = (Outcome.validationExhaustion, emptyDb) := by
  intro req raw now v ht hn hp hall
  simp [handle, ht, hn, hp, runFilter_empty hall]

def c4req : GenRequest :=
  { topic := some (Json.str ("t".toList)), numQuestions := some (Json.num (Dec.ofInt 1)),
    duration := none, questionConfigs := some (Json.arr []) }

/-- Witness for C4: a parse yielding two numbers (no options anywhere)
ends in `ValidationExhaustion` with an empty store. -/
theorem c4_witness :
    handle c4req ("[1,2]".toList) 0 = (Outcome.validationExhaustion, emptyDb) := by
  refine c4_validation_exhaustion c4req _ _
    (Json.arr [Json.num (Dec.ofInt 1), Json.num (Dec.ofInt 2)]) rfl rfl rfl ?_
  intro q hq
  simp only [jsToArray, List.mem_cons, List.not_mem_nil, or_false] at hq
  rcases hq with rfl | rfl <;> exact ⟨by simp, rfl⟩

/-- Counterexample to C4 as frozen: the text `null` parses to the sequence
`[null]`, which has zero elements with an acceptable options array, yet the
outcome is the generic internal error, not `ValidationExhaustion` (the
filter's `q.options` read throws on `null`).  No record is persisted. -/
theorem c4_counterexample :
    tolerantParse (normalize ("null".toList)) = some Json.null ∧
    jsToArray Json.null = [Json.null] ∧
    optionsOk (getSafe Json.null ("options".toList)) = false ∧
    handle c4req ("null".toList) 0 = (Outcome.internalError, emptyDb) ∧
    Outcome.internalError ≠ Outcome.validationExhaustion :=
  ⟨rfl, rfl, rfl, rfl, by decide⟩

/-! ## C9 — missing questionConfigs orphans the quiz -/

/-- With no `questionConfigs` in the request, building any question
document throws at `questionConfigs[index]`. -/
theorem buildDoc_noConfigs (i : Nat) (q : Json) : buildDoc none i q = .error () := by
  cases q <;> rfl

theorem buildDocs_noConfigs {l : List Json} (h : l ≠ []) :
    buildDocs none 0 l = .error () := by
  cases l with
  | nil => exact absurd rfl h
  | cons q rest =>
    simp only [buildDocs]
    rw [buildDoc_noConfigs, ebind_err]

/--
Claim C9: a request with truthy `topic` and `numQuestions` but no
`questionConfigs`, whose generated output passes parsing and keeps at least
one candidate with four options, fails with the generic internal error (not
an input error) during question-document construction; at that point
exactly one QuizRecord — with `total_points` 0 — has been persisted, and no
question or session documents.
-/
theorem c9_missing_configs :
    ∀ (req : GenRequest) (raw : List Char) (now : Int) (v : Json) (fl : List Json) (d : Dec),
    req.questionConfigs = none →
    jsTruthyO req.topic = true → jsTruthyO req.numQuestions = true →
    tolerantParse (normalize raw) = some v →
    runFilter (jsToArray v) = .ok fl →
    fl ≠ [] →
    castDuration (jsOrTen req.duration) = some d →
    (∃ qz : QuizRecord, handle req raw now = (Outcome.internalError, ⟨[qz], [], []⟩) ∧
      qz.total_points = Json.num (Dec.ofInt 0)) ∧
    Outcome.internalError ≠ Outcome.inputError := by
  intro req raw now v fl d hqc ht hn hp hf hfl hd
  have hfe : fl.isEmpty = false := by
    cases fl with
    | nil => exact absurd rfl hfl
    | cons a l => rfl
  refine ⟨⟨⟨"ai quiz on ".toList ++ jsToString (req.topic.getD Json.null),
           "automatically generated quiz about ".toList ++ jsToString (req.topic.getD Json.null),
           d, Json.num (Dec.ofInt 0)⟩, ?_, rfl⟩, by decide⟩
  simp [handle, ht, hn, hp, hf, hd, hqc, hfe, buildDocs_noConfigs hfl]

def c9req : GenRequest :=
  { topic := some (Json.str ("t".toList)), numQuestions := some (Json.num (Dec.ofInt 1)),
    duration := none, questionConfigs := none }

/-- Witness for C9 at a concrete run: one well-formed candidate, no
configuration array — the quiz document alone is persisted. -/
theorem c9_witness :
    ∃ qz : QuizRecord,
      handle c9req ("[\x7b\"options\":[\"a\",\"b\",\"c\",\"d\"]\x7d]".toList) 0
        = (Outcome.internalError, ⟨[qz], [], []⟩) ∧
      qz.total_points = Json.num (Dec.ofInt 0) :=
  (c9_missing_configs c9req ("[\x7b\"options\":[\"a\",\"b\",\"c\",\"d\"]\x7d]".toList)
    0 (Json.arr [Json.obj [("options".toList, Json.arr optsABCD)]])
    [Json.obj [("options".toList, Json.arr optsABCD)]] (Dec.ofInt 10)
    rfl rfl rfl rfl rfl (by simp) rfl).1

/-! ## Shape of a handler run -/

/-- Either the run succeeds — and then the store holds exactly one quiz,
the built documents, and one session whose window is derived from the
stored duration — or it does not, and then no session was persisted. -/
theorem handle_shape (req : GenRequest) (raw : List Char) (now : Int) :
    (∃ d docs,
      castDuration (jsOrTen req.duration) = some d ∧
      handle req raw now = (Outcome.success,
        ⟨[⟨"ai quiz on ".toList ++ jsToString (req.topic.getD Json.null),
           "automatically generated quiz about ".toList ++ jsToString (req.topic.getD Json.null),
           d, sumPoints docs⟩], docs,
         [⟨Dec.ofInt now,
           Dec.truncMs (Dec.add (Dec.ofInt now) (Dec.mul d (Dec.ofInt 60000))), true⟩]⟩)) ∨
    ((handle req raw now).1 ≠ Outcome.success ∧ (handle req raw now).2.sessions = []) := by
  unfold handle
  repeat' split
  all_goals first
    | (right; exact ⟨by simp, rfl⟩)
    | (left; exact ⟨_, _, by assumption, rfl⟩)

/-- With both required fields truthy, the missing-fields rejection of line
19 cannot be the outcome. -/
theorem handle_not_inputError (req : GenRequest) (raw : List Char) (now : Int)
    (ht : jsTruthyO req.topic = true) (hn : jsTruthyO req.numQuestions = true) :
    (handle req raw now).1 ≠ Outcome.inputError := by
  unfold handle
  rw [ht, hn]
  simp only [Bool.and_self, Bool.not_true, Bool.false_eq_true, if_false]
  repeat' split
  all_goals simp

/-! ## C8 — session window -/

theorem stripTens_e_le : ∀ (n : Nat) (m e : Int), e ≤ (stripTens n m e).e := by
  intro n
  induction n with
  | zero => intro m e; exact le_refl _
  | succ n ih =>
    intro m e
    simp only [stripTens]
    split
    · exact le_trans (by omega) (ih (m / 10) (e + 1))
    · exact le_refl _

theorem norm_e_nonneg {m e : Int} (h : 0 ≤ e) : 0 ≤ (Dec.norm m e).e := by
  unfold Dec.norm
  split
  · exact le_refl 0
  · exact le_trans h (stripTens_e_le _ _ _)

theorem ofInt_e_nonneg (i : Int) : 0 ≤ (Dec.ofInt i).e := norm_e_nonneg (le_refl 0)

theorem add_e_nonneg {a b : Dec} (ha : 0 ≤ a.e) (hb : 0 ≤ b.e) :
    0 ≤ (Dec.add a b).e := by
  unfold Dec.add
  split
  · exact norm_e_nonneg ha
  · exact norm_e_nonneg hb

/-- On an integral number of milliseconds the `Date` truncation is the
identity. -/
theorem truncMs_of_int {a : Dec} (h : 0 ≤ a.e) : Dec.truncMs a = a := by
  unfold Dec.truncMs
  rw [if_pos h]

/--
Claim C8 (amended): every session persisted by a run is active at creation,
and its end time is the millisecond truncation — toward zero, as the `Date`
constructor of line 163 applies — of the start time plus the stored quiz
duration times 60000.  Whenever `duration * 60000` is an integral number of
milliseconds, in particular for every integer duration, the truncation is
the identity and the conversion is exact with no rounding.  (The frozen
claim asserted exactness unconditionally; `c8_counterexample` shows a
fractional duration of 0.00001 minutes is truncated — the session ends at
its start instead of 0.6 ms later.)
-/
theorem c8_session_window :
    ∀ (req : GenRequest) (raw : List Char) (now : Int) (o : Outcome) (db : Db),
    handle req raw now = (o, db) →
    ∀ s ∈ db.sessions, s.is_active = true ∧
      ∃ qz ∈ db.quizzes,
        s.end_time
          = Dec.truncMs (Dec.add s.start_time (Dec.mul qz.duration (Dec.ofInt 60000))) ∧
        (0 ≤ (Dec.mul qz.duration (Dec.ofInt 60000)).e →
          s.end_time = Dec.add s.start_time (Dec.mul qz.duration (Dec.ofInt 60000))) := by
  intro req raw now o db h s hs
  rcases handle_shape req raw now with ⟨d, docs, hcast, hh⟩ | ⟨hno, hses⟩
  · have hdb := h.symm.trans hh
    injection hdb with h1 h2
    subst h2
    simp only [List.mem_singleton] at hs
    subst hs
    refine ⟨rfl, _, List.mem_singleton.mpr rfl, rfl, ?_⟩
    intro he
    exact truncMs_of_int (add_e_nonneg (ofInt_e_nonneg now) he)
  · rw [h] at hses
    simp only at hses
    rw [hses] at hs
    exact absurd hs (List.not_mem_nil s)

def c8req : GenRequest :=
  { topic := some (Json.str ("math".toList)), numQuestions := some (Json.num (Dec.ofInt 5)),
    duration := some (Json.num (Dec.ofInt 2)), questionConfigs := some (Json.arr []) }

def c8raw : List Char :=
  ("[\x7b\"question_text\":\"Q\",\"options\":[\"a\",\"b\",\"c\",\"d\"],\"correct_answer\":\"b\"\x7d]").toList

def c8db : Db :=
  ⟨[⟨"ai quiz on math".toList, "automatically generated quiz about math".toList,
     Dec.ofInt 2, Json.num (Dec.ofInt 10)⟩],
   [⟨some (Json.str ("Q".toList)), "MCQ".toList, optsABCD,
     Json.str ("b".toList), Json.num (Dec.ofInt 10)⟩],
   [⟨Dec.ofInt 0, Dec.ofInt 120000, true⟩]⟩

/-- Witness for C8 at a concrete successful run: a two-minute quiz gives a
session ending exactly 120000 milliseconds after it starts, the truncation
being the identity on this integral window. -/
theorem c8_witness :
    (⟨Dec.ofInt 0, Dec.ofInt 120000, true⟩ : SessionRecord).is_active = true ∧
    ∃ qz ∈ c8db.quizzes,
      (⟨Dec.ofInt 0, Dec.ofInt 120000, true⟩ : SessionRecord).end_time
        = Dec.truncMs (Dec.add (Dec.ofInt 0) (Dec.mul qz.duration (Dec.ofInt 60000))) ∧
      (0 ≤ (Dec.mul qz.duration (Dec.ofInt 60000)).e →
        (⟨Dec.ofInt 0, Dec.ofInt 120000, true⟩ : SessionRecord).end_time
          = Dec.add (Dec.ofInt 0) (Dec.mul qz.duration (Dec.ofInt 60000))) :=
  c8_session_window c8req c8raw 0 Outcome.success c8db rfl
    ⟨Dec.ofInt 0, Dec.ofInt 120000, true⟩ (List.mem_singleton.mpr rfl)

def c8fracReq : GenRequest :=
  { topic := some (Json.str ("math".toList)), numQuestions := some (Json.num (Dec.ofInt 5)),
    duration := some (Json.num ⟨1, -5⟩), questionConfigs := some (Json.arr []) }

def c8fracDb : Db :=
  ⟨[⟨"ai quiz on math".toList, "automatically generated quiz about math".toList,
     ⟨1, -5⟩, Json.num (Dec.ofInt 10)⟩],
   [⟨some (Json.str ("Q".toList)), "MCQ".toList, optsABCD,
     Json.str ("b".toList), Json.num (Dec.ofInt 10)⟩],
   [⟨Dec.ofInt 0, Dec.ofInt 0, true⟩]⟩

/-- Counterexample to C8 as frozen: a request with `duration: 0.00001` is
truthy, so it is kept verbatim; the session window would be 0.6 ms, which
the `Date` constructor truncates, storing an end time equal to the start
time — not start plus duration times 60000. -/
theorem c8_counterexample :
    handle c8fracReq c8raw 0 = (Outcome.success, c8fracDb) ∧
    c8fracDb.sessions = [⟨Dec.ofInt 0, Dec.ofInt 0, true⟩] ∧
    Dec.ofInt 0 ≠ Dec.add (Dec.ofInt 0) (Dec.mul ⟨1, -5⟩ (Dec.ofInt 60000)) :=
  ⟨rfl, rfl, by decide⟩

/-! ## C10 — duration defaulting -/

/--
Claim C10: a request whose `duration` is absent, `null`, or `0` is not
rejected as invalid; when the run succeeds, the stored quiz duration is the
default `10` and the session window is ten minutes (600000 milliseconds).
-/
theorem c10_duration_default :
    ∀ (req : GenRequest) (raw : List Char) (now : Int) (o : Outcome) (db : Db),
    (req.duration = none ∨ req.duration = some Json.null ∨
      req.duration = some (Json.num (Dec.ofInt 0))) →
    jsTruthyO req.topic = true → jsTruthyO req.numQuestions = true →
    handle req raw now = (o, db) →
    o ≠ Outcome.inputError ∧
    (o = Outcome.success →
      (∀ qz ∈ db.quizzes, qz.duration = Dec.ofInt 10) ∧
      (∀ s ∈ db.sessions, s.end_time = Dec.add s.start_time (Dec.ofInt 600000))) := by
  intro req raw now o db hdur ht hn h
  have hor : jsOrTen req.duration = Json.num (Dec.ofInt 10) := by
    rcases hdur with h1 | h1 | h1 <;> rw [h1] <;> rfl
  constructor
  · intro ho
    subst ho
    exact handle_not_inputError req raw now ht hn (by rw [h])
  · intro ho
    subst ho
    rcases handle_shape req raw now with ⟨d, docs, hcast, hh⟩ | ⟨hno, _⟩
    · rw [hor] at hcast
      obtain rfl : Dec.ofInt 10 = d := (Option.some.injEq _ _).mp hcast
      have hdb := h.symm.trans hh
      injection hdb with h1 h2
      subst h2
      constructor
      · intro qz hqz
        simp only [List.mem_singleton] at hqz
        subst hqz
        rfl
      · intro s hs
        simp only [List.mem_singleton] at hs
        subst hs
        show Dec.truncMs (Dec.add (Dec.ofInt now) (Dec.mul (Dec.ofInt 10) (Dec.ofInt 60000)))
            = Dec.add (Dec.ofInt now) (Dec.ofInt 600000)
        rw [show Dec.mul (Dec.ofInt 10) (Dec.ofInt 60000) = Dec.ofInt 600000 from rfl]
        exact truncMs_of_int (add_e_nonneg (ofInt_e_nonneg now) (ofInt_e_nonneg 600000))
    · exact absurd (by rw [h]) hno

def c10req : GenRequest :=
  { topic := some (Json.str ("math".toList)), numQuestions := some (Json.num (Dec.ofInt 5)),
    duration := some (Json.num (Dec.ofInt 0)), questionConfigs := some (Json.arr []) }

def c10db : Db :=
  ⟨[⟨"ai quiz on math".toList, "automatically generated quiz about math".toList,
     Dec.ofInt 10, Json.num (Dec.ofInt 10)⟩],
   [⟨some (Json.str ("Q".toList)), "MCQ".toList, optsABCD,
     Json.str ("b".toList), Json.num (Dec.ofInt 10)⟩],
   [⟨Dec.ofInt 0, Dec.ofInt 600000, true⟩]⟩

/-- Witness for C10 at a concrete run with `duration: 0`: the request is
accepted, the stored duration is 10, and the session lasts 600000
milliseconds. -/
theorem c10_witness :
    Outcome.success ≠ Outcome.inputError ∧
    ((⟨"ai quiz on math".toList, "automatically generated quiz about math".toList,
       Dec.ofInt 10, Json.num (Dec.ofInt 10)⟩ : QuizRecord).duration = Dec.ofInt 10 ∧
     (⟨Dec.ofInt 0, Dec.ofInt 600000, true⟩ : SessionRecord).end_time
       = Dec.add (⟨Dec.ofInt 0, Dec.ofInt 600000, true⟩ : SessionRecord).start_time
           (Dec.ofInt 600000)) := by
  have h := c10_duration_default c10req c8raw 0 Outcome.success c10db
    (Or.inr (Or.inr rfl)) rfl rfl rfl
  exact ⟨h.1, (h.2 rfl).1 _ (List.mem_singleton.mpr rfl),
         (h.2 rfl).2 _ (List.mem_singleton.mpr rfl)⟩

/-! ## C5 — fallback ordering of the three stages -/

/--
Claim C5: the tolerant parser tries the three stages at most once each, in
the fixed order 1, 2, 3: a stage-1 success is returned as is (stages 2 and
3 cannot influence the result), a stage-2 success is returned exactly when
stage 1 failed, and the result is stage 3's exactly when both failed.
-/
theorem c5_stage_ordering :
    ∀ t : List Char,
    (∀ v, stage1 t = some v → tolerantParse t = some v) ∧
    (stage1 t = none → ∀ v, stage2 t = some v → tolerantParse t = some v) ∧
    (stage1 t = none → stage2 t = none → tolerantParse t = stage3 t) := by
  intro t
  refine ⟨?_, ?_, ?_⟩
  · intro v h1
    simp [tolerantParse, h1]
  · intro h1 v h2
    simp [tolerantParse, h1, h2]
  · intro h1 h2
    simp [tolerantParse, h1, h2]

/-- Witness for C5: a directly-parsable text is returned by stage 1. -/
theorem c5_witness :
    tolerantParse ("[1]".toList) = some (Json.arr [Json.num (Dec.ofInt 1)]) :=
  (c5_stage_ordering ("[1]".toList)).1 (Json.arr [Json.num (Dec.ofInt 1)]) rfl

/-! ## C6 — the concatenated-objects repair -/

def c6text : List Char :=
  ("\x7b\"question_text\":\"A\",\"options\":[\"a\",\"b\",\"c\",\"d\"],\"correct_answer\":\"a\"\x7d\x7b\"question_text\":\"B\",\"options\":[\"e\",\"f\",\"g\",\"h\"],\"correct_answer\":\"e\"\x7d").toList

def c6q1 : Json := Json.obj
  [("question_text".toList, Json.str ("A".toList)),
   ("options".toList, Json.arr
     [Json.str ("a".toList), Json.str ("b".toList), Json.str ("c".toList), Json.str ("d".toList)]),
   ("correct_answer".toList, Json.str ("a".toList))]

def c6q2 : Json := Json.obj
  [("question_text".toList, Json.str ("B".toList)),
   ("options".toList, Json.arr
     [Json.str ("e".toList), Json.str ("f".toList), Json.str ("g".toList), Json.str ("h".toList)]),
   ("correct_answer".toList, Json.str ("e".toList))]

/--
Claim C6: the two concatenated object literals defeat stage 1, are repaired
by stage 2's comma insertion and array wrapping, and parse to exactly the
two expected candidate questions.
-/
theorem c6_concatenated_repair :
    stage1 c6text = none ∧
    stage2 c6text = some (Json.arr [c6q1, c6q2]) ∧
    tolerantParse c6text = some (Json.arr [c6q1, c6q2]) ∧
    (jsToArray (Json.arr [c6q1, c6q2])).length = 2 :=
  ⟨rfl, rfl, rfl, rfl⟩

/-! ## C7 — normalizer idempotence -/

theorem dropWhile_idem (p : Char → Bool) (l : List Char) :
    (l.dropWhile p).dropWhile p = l.dropWhile p := by
  induction l with
  | nil => rfl
  | cons a l ih =>
    rw [List.dropWhile_cons]
    split
    · exact ih
    · rename_i hpa
      rw [List.dropWhile_cons, if_neg hpa]

theorem dropWhile_head_false {p : Char → Bool} :
    ∀ {l : List Char} {a : Char} {t : List Char},
    List.dropWhile p l = a :: t → p a = false := by
  intro l
  induction l with
  | nil => intro a t h; cases h
  | cons b l ih =>
    intro a t h
    rw [List.dropWhile_cons] at h
    split at h
    · exact ih h
    · cases h
      rename_i hb
      cases hpb : p b with
      | false => rfl
      | true => exact absurd hpb hb

/-- Trimming is idempotent. -/
theorem trimChars_idem (s : List Char) : trimChars (trimChars s) = trimChars s := by
  unfold trimChars
  set u := s.dropWhile isJsWs with hu
  set w := u.reverse.dropWhile isJsWs with hw
  have hstep2 : w.reverse.dropWhile isJsWs = w.reverse := by
    cases htr : w.reverse with
    | nil => rfl
    | cons a t' =>
      have hpre : w.reverse <+: u := by
        obtain ⟨p0, hp0⟩ := List.dropWhile_suffix (l := u.reverse) isJsWs
        refine ⟨p0.reverse, ?_⟩
        rw [← hw] at hp0
        rw [← List.reverse_append, hp0, List.reverse_reverse]
      obtain ⟨tl, htl⟩ := hpre
      rw [htr] at htl
      have hua : u = a :: (t' ++ tl) := by rw [← htl]; rfl
      have hpa : isJsWs a = false :=
        dropWhile_head_false (l := s) (by rw [← hu]; exact hua)
      rw [List.dropWhile_cons, if_neg (by simp [hpa])]
  have hstep1 : (w.reverse.reverse).dropWhile isJsWs = w.reverse.reverse := by
    rw [List.reverse_reverse, hw, dropWhile_idem]
  rw [hstep2, hstep1]
  simp

theorem isPrefixOf_of_append {a b : List Char} :
    ∀ {s : List Char}, (a ++ b).isPrefixOf s = true → a.isPrefixOf s = true := by
  induction a with
  | nil => intro s _; cases s <;> rfl
  | cons c a' ih =>
    intro s h
    cases s with
    | nil => cases h
    | cons d s' =>
      simp only [List.cons_append, List.isPrefixOf, Bool.and_eq_true] at h ⊢
      exact ⟨h.1, ih h.2⟩

theorem hasSub_cons {pat c cs} (h : hasSub pat (c :: cs) = false) :
    pat.isPrefixOf (c :: cs) = false ∧ hasSub pat cs = false := by
  simpa only [hasSub, Bool.or_eq_false_iff] using h

/-- Without any fence marker in the text, the first `replace` of line 79 is
the identity. -/
theorem replFJ_id : ∀ {s : List Char}, hasSub fence s = false → replFJ s = s := by
  intro s
  induction s with
  | nil => intro _; rfl
  | cons c cs ih =>
    intro h
    obtain ⟨hpre, htail⟩ := hasSub_cons h
    have hfj : fenceJson.isPrefixOf (c :: cs) = false := by
      cases hj : fenceJson.isPrefixOf (c :: cs) with
      | false => rfl
      | true =>
        have : fence.isPrefixOf (c :: cs) = true :=
          isPrefixOf_of_append (a := fence) (b := "json".toList) hj
        rw [hpre] at this
        cases this
    simp only [replFJ, fjMatch, hfj, Bool.false_eq_true, if_false]
    rw [ih htail]

/-- Without any fence marker in the text, the second `replace` of line 80
is the identity. -/
theorem replF_id : ∀ {s : List Char}, hasSub fence s = false → replF s = s := by
  intro s
  induction s with
  | nil => intro _; rfl
  | cons c cs ih =>
    intro h
    obtain ⟨hpre, htail⟩ := hasSub_cons h
    simp only [replF, fMatch, hpre, Bool.false_eq_true, if_false]
    rw [ih htail]

/--
Claim C7 (amended): the normalizer is idempotent on every input whose
normalized form contains no fence marker (three backticks); it is **not**
idempotent in general — an input with two fenced blocks loses only the
first on the first pass and the second on a second pass
(`c7_counterexample`).
-/
theorem c7_normalizer_idem_no_fence :
    ∀ s : List Char, hasSub fence (normalize s) = false →
    normalize (normalize s) = normalize s := by
  intro s h
  conv_lhs => rw [normalize]
  rw [replFJ_id h, replF_id h]
  unfold normalize
  exact trimChars_idem _

/-- Witness for C7 on a fence-free input. -/
theorem c7_witness :
    hasSub fence (normalize ("hello".toList)) = false ∧
    normalize (normalize ("hello".toList)) = normalize ("hello".toList) :=
  ⟨rfl, c7_normalizer_idem_no_fence ("hello".toList) rfl⟩

/-- Counterexample to C7 as frozen: with two fenced blocks the first pass
strips only the first block, the second pass strips the other, so applying
the normalizer twice differs from applying it once. -/
theorem c7_counterexample :
    normalize (normalize ("```a``` ```b```".toList)) ≠ normalize ("```a``` ```b```".toList) := by
  decide

end AiQuiz
